import Mathlib

/-
Shallow embedding of the balance/transaction coordination subsystem of the
fdyyuk/Store Discord-shop bot, translated from the Python sources:

  src/ext/constants.py        -- the Balance value object and message constants
  src/ext/cache_manager.py    -- two-tier cache (in-process dict + cache_table)
  src/ext/balance_manager.py  -- BalanceManagerService
  src/ext/product_manager.py  -- ProductManagerService
  src/ext/trx.py              -- TransactionManager (purchase coordinator)

Modelling conventions, stated once here:

* The system is embedded sequentially: one operation runs at a time, so the
  named-mutex registry (ext/base_handler.py, a file whose callers are in src
  but whose body is not) is modelled from the spec as always granting the
  lock; the explicit LOCK_ACQUISITION_FAILED early returns are therefore not
  reachable in the model and are omitted.  No claim below concerns lock
  contention.
* The SQLite store is modelled as typed lists inside `SysState`.  A query
  with an ORDER BY is modelled by a stable insertion sort on the relevant
  column; `transactions` is kept newest-first, matching the only query made
  on it (ORDER BY created_at DESC) with `created_at := now` stamps.
* Wall-clock time is an explicit `now : Nat` parameter (seconds); a Python
  `datetime.utcnow()` comparison `expires_at > utcnow()` becomes
  `now < expires_at`.
* JSON encode/decode of durable cache values (CustomJSONEncoder/Decoder in
  cache_manager.py) round-trips for every value shape the system stores, so
  the backing-store tier holds `CVal` values directly.
* Python truthiness at `if cached:` sites is modelled per value shape:
  an empty string, empty list or empty dict is falsy (treated as a miss),
  any Balance object or non-empty value is truthy.  Branches that could only
  be reached if a cache key held a value of a shape the program never stores
  under that key are routed to the miss path, with a comment at each site.
* Success messages and embed rendering are presentation only and dropped;
  error identity is carried by the exact MESSAGES.ERROR text (without the
  leading emoji marker, which is display-only).
-/

namespace Store

/-! ## Ledger (Balance) model — src/ext/constants.py, class Balance -/

/-- Balance value object.  The Python constructor clamps each component with
`max(0, x)`; `Balance.mk'` below performs that clamp, so stored components
are natural numbers. -/
structure Balance where
  wl : Nat
  dl : Nat
  bgl : Nat
deriving DecidableEq, Repr

def Balance.MIN_AMOUNT : Nat := 0

def Balance.MAX_AMOUNT : Nat := 1000000

/-- The Python constructor `Balance(wl, dl, bgl)` applies `max(0, ·)` to each
argument; on integers that clamp is exactly `Int.toNat`. -/
def Balance.mk' (wl dl bgl : Int) : Balance :=
  ⟨wl.toNat, dl.toNat, bgl.toNat⟩

/-- Python `total_wl`: convert the whole balance to WL base units. -/
def Balance.total_wl (b : Balance) : Nat :=
  b.wl + b.dl * 100 + b.bgl * 10000

/-- Python `validate`: `MIN_AMOUNT <= total_wl() <= MAX_AMOUNT`. -/
def Balance.validate (b : Balance) : Bool :=
  decide (Balance.MIN_AMOUNT ≤ b.total_wl ∧ b.total_wl ≤ Balance.MAX_AMOUNT)

/-- Helper for Python `f"{n:,}"`: walk the reversed digit list and emit a
comma before every digit whose index is a positive multiple of three. -/
def commaRevGo : List Char → Nat → List Char
  | [], _ => []
  | c :: cs, k =>
    if k ≠ 0 ∧ k % 3 = 0 then ',' :: c :: commaRevGo cs (k + 1)
    else c :: commaRevGo cs (k + 1)

/-- Decimal rendering of a natural number with thousands separators, the
meaning of Python `f"{n:,}"` for non-negative `n`. -/
def commaFmt (n : Nat) : String :=
  ⟨(commaRevGo (Nat.toDigits 10 n).reverse 0).reverse⟩

/-- Python `format`: list the non-zero tiers, BGL first, falling back to WL when all
parts would otherwise be empty (`if self.wl > 0 or not parts`). -/
def Balance.format (b : Balance) : String :=
  let parts : List String :=
    (if b.bgl > 0 then [commaFmt b.bgl ++ " BGL"] else []) ++
    (if b.dl > 0 then [commaFmt b.dl ++ " DL"] else [])
  let parts : List String :=
    parts ++ (if b.wl > 0 ∨ parts = [] then [commaFmt b.wl ++ " WL"] else [])
  String.intercalate ", " parts

/-- Python `from_wl`: decompose a WL total.  Python `//` and `%` are floor
division/modulus, which for the positive divisors used here coincide with
Lean `Int` division; the final constructor clamp is `Balance.mk'`. -/
def Balance.from_wl (totalWl : Int) : Balance :=
  let bgl := totalWl / 10000
  let remaining := totalWl % 10000
  let dl := remaining / 100
  let wl := remaining % 100
  Balance.mk' wl dl bgl

/-! ## Store rows -/

/-- Row of the `users` table (`growid, balance_wl, balance_dl, balance_bgl`).
Every write path stores the already-clamped non-negative tier values, so the
columns are modelled as `Nat`. -/
structure UserRow where
  growid : String
  balance_wl : Nat
  balance_dl : Nat
  balance_bgl : Nat
deriving DecidableEq, Repr

/-- Row of the `transactions` ledger table. -/
structure TrxRow where
  growid : String
  type : String
  details : String
  old_balance : String
  new_balance : String
  created_at : Nat
deriving DecidableEq, Repr

/-- Row of the `products` table. -/
structure ProductRow where
  code : String
  name : String
  price : Int
  description : String
deriving DecidableEq, Repr

/-- Row of the `stock` table. -/
structure StockRow where
  id : Nat
  product_code : String
  content : String
  status : String
  buyer_id : Option String
  added_at : Nat
deriving DecidableEq, Repr

/-- The projection of a stock row built by `get_available_stock`
(`{'id': .., 'content': .., 'added_at': ..}`). -/
structure StockItem where
  id : Nat
  content : String
  added_at : Nat
deriving DecidableEq, Repr

/-! ## Cache values and the two-tier cache — src/ext/cache_manager.py -/

/-- The value shapes the system stores in the cache: Balance objects, strings
(growid / discord id lookups), counts, transaction pages, available-stock
pages and product dicts. -/
inductive CVal where
  | bal (b : Balance)
  | str (s : String)
  | nat (n : Nat)
  | trxList (l : List TrxRow)
  | stockItems (l : List StockItem)
  | prod (p : ProductRow)
deriving DecidableEq, Repr

/-- One in-process cache entry: `{'value': .., 'expires_at': ..}`. -/
structure CacheEntry where
  value : CVal
  expires_at : Nat
deriving DecidableEq, Repr

/-- Row of the durable `cache_table`. -/
structure DbCacheRow where
  key : String
  value : CVal
  expires_at : Nat
deriving DecidableEq, Repr

abbrev MemCache := List (String × CacheEntry)

/-- Whole-system state: the SQLite tables plus the in-process cache dict. -/
structure SysState where
  users : List UserRow
  user_growid : List (String × String)
  transactions : List TrxRow
  products : List ProductRow
  stock : List StockRow
  mem : MemCache
  cache_table : List DbCacheRow
deriving DecidableEq, Repr

/-- Dict lookup `self.memory_cache[key]` (first binding; reachable states
keep at most one binding per key). -/
def memLookup (m : MemCache) (k : String) : Option CacheEntry :=
  (m.find? (fun kv => kv.1 = k)).map (fun kv => kv.2)

/-- Dict deletion `del self.memory_cache[key]`. -/
def memErase (m : MemCache) (k : String) : MemCache :=
  m.filter (fun kv => ¬ kv.1 = k)

/-- Dict assignment `self.memory_cache[key] = entry`: replace in place when
the key is present (dict order is preserved), append otherwise. -/
def memSet (m : MemCache) (k : String) (e : CacheEntry) : MemCache :=
  if m.any (fun kv => kv.1 = k) then
    m.map (fun kv => if kv.1 = k then (k, e) else kv)
  else m ++ [(k, e)]

def insertByExp (x : String × CacheEntry) :
    List (String × CacheEntry) → List (String × CacheEntry)
  | [] => [x]
  | y :: ys =>
    if x.2.expires_at < y.2.expires_at then x :: y :: ys
    else y :: insertByExp x ys

/-- Stable ascending sort by `expires_at`, the meaning of the Python
`sorted(self.memory_cache.items(), key=lambda x: x[1]['expires_at'])`. -/
def sortByExp : List (String × CacheEntry) → List (String × CacheEntry)
  | [] => []
  | x :: xs => insertByExp x (sortByExp xs)

def MAX_MEMORY_ITEMS : Nat := 10000

/-- Python `_enforce_memory_limit`: above 10000 entries, delete the 1000 entries
(`int(MAX_MEMORY_ITEMS * 0.1)`) with the oldest `expires_at`. -/
def enforceMemoryLimit (m : MemCache) : MemCache :=
  if m.length > MAX_MEMORY_ITEMS then
    let rem := ((sortByExp m).take 1000).map (fun kv => kv.1)
    m.filter (fun kv => ¬ rem.contains kv.1)
  else m

def dbLookup (t : List DbCacheRow) (k : String) : Option DbCacheRow :=
  t.find? (fun r => r.key = k)

def dbErase (t : List DbCacheRow) (k : String) : List DbCacheRow :=
  t.filter (fun r => ¬ r.key = k)

/-- Python `_is_valid`: `cache_data['expires_at'] > datetime.utcnow()`. -/
def isValid (e : CacheEntry) (now : Nat) : Bool := decide (now < e.expires_at)

/-- The backing-store tier of `CacheManager.get`: on a row whose expiry is
still in the future, decode, repopulate the in-process map (then enforce the
memory limit) and return the value; on an expired row, delete it and miss. -/
def cacheGetDb (s : SysState) (key : String) (now : Nat) :
    Option CVal × SysState :=
  match dbLookup s.cache_table key with
  | some row =>
    if now < row.expires_at then
      (some row.value,
       { s with
         mem := enforceMemoryLimit (memSet s.mem key ⟨row.value, row.expires_at⟩) })
    else
      (none, { s with cache_table := dbErase s.cache_table key })
  | none => (none, s)

/-- Python `CacheManager.get`: check the in-process map first; a valid entry is a
hit, an expired entry is deleted and the lookup falls through to the
backing store. -/
def cacheGet (s : SysState) (key : String) (now : Nat) :
    Option CVal × SysState :=
  match memLookup s.mem key with
  | some e =>
    if isValid e now then (some e.value, s)
    else cacheGetDb { s with mem := memErase s.mem key } key now
  | none => cacheGetDb s key now

def CACHE_SHORT : Nat := 300
def CACHE_MEDIUM : Nat := 3600
def CACHE_LONG : Nat := 86400
def CACHE_PERMANENT : Nat := 315360000

/-- Python `CacheManager.set`: always populate the in-process map with
`now + expires_in` (defaulting to the PERMANENT window) and enforce the
memory limit; when `permanent` also upsert into `cache_table`. -/
def cacheSet (s : SysState) (key : String) (value : CVal)
    (expiresIn : Option Nat) (permanent : Bool) (now : Nat) : SysState :=
  let ei := expiresIn.getD CACHE_PERMANENT
  let exp := now + ei
  let s1 := { s with mem := enforceMemoryLimit (memSet s.mem key ⟨value, exp⟩) }
  if permanent then
    { s1 with cache_table := dbErase s1.cache_table key ++ [⟨key, value, exp⟩] }
  else s1

/-- Python `CacheManager.delete`: remove the key from both tiers. -/
def cacheDelete (s : SysState) (key : String) : SysState :=
  { s with mem := memErase s.mem key, cache_table := dbErase s.cache_table key }

/-! ## Error messages — src/ext/constants.py, MESSAGES.ERROR (the leading
emoji marker of each message is display-only and dropped) -/

def MSG_INSUFFICIENT_BALANCE : String := "Balance tidak cukup!"
def MSG_INVALID_AMOUNT : String := "Jumlah tidak valid!"
def MSG_TRANSACTION_FAILED : String := "Transaksi gagal!"
def MSG_REGISTRATION_FAILED : String := "Registrasi gagal! Silakan coba lagi."
def MSG_NOT_REGISTERED : String := "Anda belum terdaftar! Gunakan tombol Register."
def MSG_BALANCE_NOT_FOUND : String := "Balance tidak ditemukan!"
def MSG_NO_HISTORY : String := "Tidak ada riwayat transaksi!"
def MSG_INVALID_GROWID : String := "GrowID tidak valid!"
def MSG_PRODUCT_NOT_FOUND : String := "Produk tidak ditemukan!"
def MSG_INSUFFICIENT_STOCK : String := "Stock tidak mencukupi!"

/-- Tagged result mirroring the `success/data/error` response objects
(`BalanceResponse`, `ProductResponse`, `TransactionResponse`); timestamps and
success messages are presentation only and dropped. -/
inductive Resp (α : Type) where
  | ok (data : α)
  | err (error : String)
deriving DecidableEq, Repr

/-! ## BalanceManagerService — src/ext/balance_manager.py -/

namespace BalanceManagerService

/-- Store-read half of `get_growid`: read `user_growid` and cache the hit
for the LONG window. -/
def getGrowidDb (s1 : SysState) (discord_id : String) (now : Nat) :
    Resp String × SysState :=
  match s1.user_growid.find? (fun kv => kv.1 = discord_id) with
  | some kv =>
    (.ok kv.2,
     cacheSet s1 ("growid_" ++ discord_id) (.str kv.2)
       (some CACHE_LONG) false now)
  | none => (.err MSG_NOT_REGISTERED, s1)

/-- Python `get_growid`: cached lookup of the handle→GrowID identity link; on a
miss, read `user_growid` and cache the hit.  Only strings are ever stored
under `growid_...` keys, and Python treats an empty cached string as falsy,
so a non-empty cached string is the hit case. -/
def get_growid (s : SysState) (discord_id : String) (now : Nat) :
    Resp String × SysState :=
  match cacheGet s ("growid_" ++ discord_id) now with
  | (some (CVal.str g), s1) =>
    if g ≠ "" then (.ok g, s1)
    else getGrowidDb s1 discord_id now
  | (_, s1) => getGrowidDb s1 discord_id now

/-- Transactional body of `register_user`: INSERT OR IGNORE the zero-balance
`users` row, INSERT OR REPLACE the `user_growid` link, then refresh the two
identity cache entries and invalidate the balance cache entry.  The
`user_growid` schema lives in database.py, which is not under src/;
Modelled from the spec: the identity-link table is unique on each column, so
OR REPLACE evicts any row sharing the handle or the account name. -/
def registerCommit (s : SysState) (discord_id growid : String) (now : Nat) :
    Resp (String × String) × SysState :=
  let users1 :=
    if s.users.any (fun u => u.growid = growid) then s.users
    else s.users ++ [⟨growid, 0, 0, 0⟩]
  let links1 :=
    (s.user_growid.filter
      (fun kv => ¬ kv.1 = discord_id ∧ ¬ kv.2 = growid)) ++
    [(discord_id, growid)]
  let s1 := { s with users := users1, user_growid := links1 }
  let s2 := cacheSet s1 ("growid_" ++ discord_id) (.str growid)
    (some CACHE_LONG) false now
  let s3 := cacheSet s2 ("discord_id_" ++ growid) (.str discord_id)
    (some CACHE_LONG) false now
  let s4 := cacheDelete s3 ("balance_" ++ growid)
  (.ok (discord_id, growid), s4)

/-- Python `register_user`: reject names shorter than 3 characters, then run the
duplicate pre-check and commit.  The pre-check fetches a `users` row WHERE
`growid = growid` and tests `existing['growid'] != growid`, which can never
hold for a row selected by that equality; the branch is embedded as written
(its body would look up the missing MESSAGES.ERROR key GROWID_EXISTS, whose
KeyError the surrounding handler turns into REGISTRATION_FAILED). -/
def register_user (s : SysState) (discord_id growid : String) (now : Nat) :
    Resp (String × String) × SysState :=
  if growid.length < 3 then (.err MSG_INVALID_GROWID, s)
  else
    match s.users.find? (fun u => u.growid = growid) with
    | some existing =>
      if existing.growid ≠ growid then (.err MSG_REGISTRATION_FAILED, s)
      else registerCommit s discord_id growid now
    | none => registerCommit s discord_id growid now

/-- Python `get_balance`: cached read of the balance (SHORT window); on a miss,
read the `users` row, construct the Balance (the constructor clamp is a
no-op on the stored naturals) and cache it.  Only Balance values are ever
stored under `balance_...` keys (the durable tier's decoder reconstructs
Balance objects), so that is the hit case. -/
def get_balance (s : SysState) (growid : String) (now : Nat) :
    Resp Balance × SysState :=
  match cacheGet s ("balance_" ++ growid) now with
  | (some (CVal.bal b), s1) => (.ok b, s1)
  | (_, s1) =>
    match s1.users.find? (fun u => u.growid = growid) with
    | some r =>
      let b : Balance := ⟨r.balance_wl, r.balance_dl, r.balance_bgl⟩
      (.ok b,
       cacheSet s1 ("balance_" ++ growid) (.bal b) (some CACHE_SHORT) false now)
    | none => (.err MSG_BALANCE_NOT_FOUND, s1)

/-- The per-tier post value `max(0, current + delta)` computed by
`update_balance`. -/
def clampAdd (a : Nat) (δ : Int) : Nat := ((a : Int) + δ).toNat

/-- Validation and commit phase of `update_balance`, run on the state and
current balance produced by the `get_balance` read: clamp-add the deltas per
tier, reject an out-of-range result with INVALID_AMOUNT, reject an
over-withdrawal on any tier with INSUFFICIENT_BALANCE, then in one store
transaction persist the new tiers and append the ledger row with the
pre/post `format()` snapshots; after commit, refresh the balance cache entry
(SHORT window) and invalidate the transaction-history cache entry. -/
def updateApply (s1 : SysState) (growid : String) (cur : Balance)
    (wl dl bgl : Int) (details ttype : String) (now : Nat) :
    Resp Balance × SysState :=
  if (Balance.mk (clampAdd cur.wl wl) (clampAdd cur.dl dl)
      (clampAdd cur.bgl bgl)).validate = false then
    (.err MSG_INVALID_AMOUNT, s1)
  else if wl < 0 ∧ wl.natAbs > cur.wl then (.err MSG_INSUFFICIENT_BALANCE, s1)
  else if dl < 0 ∧ dl.natAbs > cur.dl then (.err MSG_INSUFFICIENT_BALANCE, s1)
  else if bgl < 0 ∧ bgl.natAbs > cur.bgl then (.err MSG_INSUFFICIENT_BALANCE, s1)
  else
    let new_balance : Balance :=
      ⟨clampAdd cur.wl wl, clampAdd cur.dl dl, clampAdd cur.bgl bgl⟩
    let s2 := { s1 with
      users := s1.users.map (fun u =>
        if u.growid = growid then
          { u with balance_wl := clampAdd cur.wl wl,
                   balance_dl := clampAdd cur.dl dl,
                   balance_bgl := clampAdd cur.bgl bgl }
        else u),
      transactions :=
        ⟨growid, ttype, details, cur.format, new_balance.format, now⟩ ::
          s1.transactions }
    let s3 := cacheSet s2 ("balance_" ++ growid) (.bal new_balance)
      (some CACHE_SHORT) false now
    let s4 := cacheDelete s3 ("trx_history_" ++ growid)
    (.ok new_balance, s4)

/-- Python `update_balance`: read the current balance through the cache, then run
the validation and commit phase on the read result. -/
def update_balance (s : SysState) (growid : String) (wl dl bgl : Int)
    (details ttype : String) (now : Nat) : Resp Balance × SysState :=
  match get_balance s growid now with
  | (.err e, s1) => (.err e, s1)
  | (.ok cur, s1) => updateApply s1 growid cur wl dl bgl details ttype now

/-- Store-read half of `get_transaction_history`: query the newest `limit`
ledger rows for the account (ORDER BY created_at DESC LIMIT ?; the
`transactions` list is kept newest-first), cache the page (SHORT window),
and return it, or NO_HISTORY when it is empty. -/
def historyDb (s1 : SysState) (growid : String) (limit : Nat) (now : Nat) :
    Resp (List TrxRow) × SysState :=
  let rows := (s1.transactions.filter (fun t => t.growid = growid)).take limit
  let s2 := cacheSet s1 ("trx_history_" ++ growid) (.trxList rows)
    (some CACHE_SHORT) false now
  if rows = [] then (.err MSG_NO_HISTORY, s2) else (.ok rows, s2)

/-- Python `get_transaction_history`: a truthy (non-empty) cached page is returned
as `cached[:limit]` without touching the store; otherwise fall through to
the store read. -/
def get_transaction_history (s : SysState) (growid : String) (limit : Nat)
    (now : Nat) : Resp (List TrxRow) × SysState :=
  match cacheGet s ("trx_history_" ++ growid) now with
  | (some (CVal.trxList l), s1) =>
    if l ≠ [] then (.ok (l.take limit), s1)
    else historyDb s1 growid limit now
  | (_, s1) => historyDb s1 growid limit now

end BalanceManagerService

/-! ## ProductManagerService — src/ext/product_manager.py -/

namespace ProductManagerService

/-- ASCII case folding on a code point (SQLite's NOCASE collation folds the
26 ASCII letters only). -/
def foldAscii (c : Char) : Nat :=
  let n := c.toNat
  if 65 ≤ n ∧ n ≤ 90 then n + 32 else n

/-- SQLite COLLATE NOCASE comparison. -/
def eqNoCase (a b : String) : Bool :=
  decide (a.data.map foldAscii = b.data.map foldAscii)

/-- Python `get_product`: cached product read; on a miss, fetch the row (COLLATE
NOCASE), cache it for the MEDIUM window and return it.  Note the return
shape: an `Option` of the row dict, not a response object — the function
predates the response-object convention its callers in trx.py expect. -/
def get_product (s : SysState) (code : String) (now : Nat) :
    Option ProductRow × SysState :=
  match cacheGet s ("product_" ++ code) now with
  | (some (CVal.prod p), s1) => (some p, s1)
  | (_, s1) =>
    match s1.products.find? (fun r => eqNoCase r.code code) with
    | some r =>
      (some r,
       cacheSet s1 ("product_" ++ code) (.prod r) (some CACHE_MEDIUM) false now)
    | none => (none, s1)

def insertByAdded (x : StockRow) : List StockRow → List StockRow
  | [] => [x]
  | y :: ys =>
    if x.added_at < y.added_at then x :: y :: ys
    else y :: insertByAdded x ys

/-- Stable ascending sort by `added_at`, the meaning of ORDER BY added_at
ASC on the stock table. -/
def sortByAdded : List StockRow → List StockRow
  | [] => []
  | x :: xs => insertByAdded x (sortByAdded xs)

/-- Store-read half of `get_available_stock`: SELECT the oldest `quantity`
AVAILABLE rows for the product, cache the page (SHORT window) and return it
as a success — an empty or short page is still a success, there is no
insufficient-stock error in this function. -/
def availableStockDb (s1 : SysState) (product_code : String) (quantity : Int)
    (now : Nat) : Resp (List StockItem) × SysState :=
  let rows :=
    ((sortByAdded (s1.stock.filter (fun r =>
        r.product_code = product_code ∧ r.status = "available"))).take
      quantity.toNat).map (fun r => StockItem.mk r.id r.content r.added_at)
  let key := "stock_" ++ product_code ++ "_q" ++ toString quantity
  (.ok rows, cacheSet s1 key (.stockItems rows) (some CACHE_SHORT) false now)

/-- Python `get_available_stock`: reject quantity < 1; a truthy (non-empty) cached
page is returned as-is; otherwise fall through to the store read. -/
def get_available_stock (s : SysState) (product_code : String) (quantity : Int)
    (now : Nat) : Resp (List StockItem) × SysState :=
  if quantity < 1 then (.err MSG_INVALID_AMOUNT, s)
  else
    match cacheGet s ("stock_" ++ product_code ++ "_q" ++ toString quantity) now with
    | (some (CVal.stockItems l), s1) =>
      if l ≠ [] then (.ok l, s1)
      else availableStockDb s1 product_code quantity now
    | (_, s1) => availableStockDb s1 product_code quantity now

def STATUS_VALUES : List String := ["available", "sold", "deleted"]

/-- The cache-invalidation loop of `update_stock_status`:
`for i in range(1, Stock.MAX_ITEMS + 1): delete(f"stock_{code}_q{i}")`. -/
def deleteQKeys (code : String) (s : SysState) : SysState :=
  (List.range' 1 1000).foldl
    (fun st i => cacheDelete st ("stock_" ++ code ++ "_q" ++ toString i)) s

/-- Python `update_stock_status (stock_id, status, buyer_id=None)`: validate the
status string, look the single stock row up by id (a missing row would look
up the absent MESSAGES.ERROR key STOCK_NOT_FOUND; the resulting KeyError is
returned as the error text), update its status (and buyer when `buyer_id`
is truthy), then invalidate the per-product cache keys and re-read the
product for the notification callback.  Note the signature: it updates ONE
row; the calls in trx.py pass four positional arguments
`(product_code, id_list, status, buyer_id)` and therefore raise TypeError
before this body runs. -/
def update_stock_status (s : SysState) (stock_id : Nat) (status : String)
    (buyer_id : Option String) (now : Nat) : Resp Unit × SysState :=
  if ¬ STATUS_VALUES.contains status then
    (.err ("Invalid status: " ++ status), s)
  else
    match s.stock.find? (fun r => r.id = stock_id) with
    | none => (.err "KeyError: STOCK_NOT_FOUND", s)
    | some row =>
      let setBuyer : Bool := match buyer_id with
        | some b => decide (b ≠ "")
        | none => false
      let stock1 := s.stock.map (fun r =>
        if r.id = stock_id then
          { r with status := status,
                   buyer_id := if setBuyer then buyer_id else r.buyer_id }
        else r)
      let s1 := { s with stock := stock1 }
      let s2 := cacheDelete s1 ("stock_count_" ++ row.product_code)
      let s3 := cacheDelete s2 ("stock_" ++ row.product_code)
      let s4 := deleteQKeys row.product_code s3
      let (_p, s5) := get_product s4 row.product_code now
      (.ok (), s5)

end ProductManagerService

/-! ## TransactionManager — src/ext/trx.py -/

namespace TransactionManager

/-- Python `process_purchase`: reject quantity < 1, resolve the buyer's GrowID,
then fetch the product.  `ProductManagerService.get_product` returns an
`Optional[Dict]`, but the coordinator immediately evaluates
`product_response.success`; neither a dict nor None has a `.success`
attribute, so this raises AttributeError, which the surrounding
`except Exception` handler converts into the TRANSACTION_FAILED error
response.  Everything after this point in the Python function — the
available-stock fetch, the total-price computation, the balance pre-check,
the AVAILABLE→SOLD marking, the `update_balance` debit and the compensating
rollback — is unreachable (and the two `update_stock_status` calls it
contains pass four positional arguments to a three-parameter method, which
would raise TypeError in any case), so it has no executable embedding. -/
def process_purchase (s : SysState) (buyer_id product_code : String)
    (quantity : Int) (now : Nat) : Resp Unit × SysState :=
  if quantity < 1 then (.err MSG_INVALID_AMOUNT, s)
  else
    match BalanceManagerService.get_growid s buyer_id now with
    | (.err e, s1) => (.err e, s1)
    | (.ok _growid, s1) =>
      let (_prod, s2) := ProductManagerService.get_product s1 product_code now
      (.err MSG_TRANSACTION_FAILED, s2)

end TransactionManager

/-! ## Concrete states used by the claim evaluations -/

/-- The all-empty starting state. -/
def emptyState : SysState := ⟨[], [], [], [], [], [], []⟩

/-- Registered buyer ("H1" → "ALICE", balance 1000 WL), product "P1" at
price 100, and exactly one AVAILABLE stock unit. -/
def stShort : SysState :=
  ⟨[⟨"ALICE", 1000, 0, 0⟩], [("H1", "ALICE")], [],
   [⟨"P1", "Prod One", 100, ""⟩],
   [⟨1, "P1", "itemA", "available", none, 0⟩], [], []⟩

/-- Registered buyer ("H1" → "ALICE", balance 1000 WL), product "P1" at
price 100, and two AVAILABLE stock units: a purchase of quantity 1 has
ample stock and ample balance. -/
def stAmple : SysState :=
  ⟨[⟨"ALICE", 1000, 0, 0⟩], [("H1", "ALICE")], [],
   [⟨"P1", "Prod One", 100, ""⟩],
   [⟨1, "P1", "itemA", "available", none, 0⟩,
    ⟨2, "P1", "itemB", "available", none, 1⟩], [], []⟩

/-- Registered buyer ("H2" → "CAROL") whose tier-1 counter is 0 but whose
total balance is 1000 WL (10 DL), product "P2" at price 500 with one
AVAILABLE unit: the coordinator's total-based pre-check would pass while a
pure tier-1 debit of 500 cannot be covered by the tier-1 counter. -/
def stTierPoor : SysState :=
  ⟨[⟨"CAROL", 0, 10, 0⟩], [("H2", "CAROL")], [],
   [⟨"P2", "Prod Two", 500, ""⟩],
   [⟨1, "P2", "itemC", "available", none, 0⟩], [], []⟩

/-- Account "DAVE" with an all-zero balance, empty cache. -/
def stZero : SysState :=
  ⟨[⟨"DAVE", 0, 0, 0⟩], [("H3", "DAVE")], [], [], [], [], []⟩

def trxNew : TrxRow := ⟨"ALICE", "deposit", "d1", "0 WL", "100 WL", 2⟩

def trxOld : TrxRow := ⟨"ALICE", "deposit", "d0", "0 WL", "50 WL", 1⟩

/-- Two ledger rows for "ALICE" in the store, while the in-process cache
holds a still-valid one-entry history page for her (as left behind by an
earlier `get_transaction_history` call with limit 1). -/
def stHist : SysState :=
  ⟨[], [], [trxNew, trxOld], [], [], [],
   []⟩

def stHistCached : SysState :=
  { stHist with mem := [("trx_history_ALICE", ⟨CVal.trxList [trxNew], 100⟩)] }


/-- Two states agree on every store table other than the cache tiers.  The
read paths below only touch the cache, so they preserve this relation. -/
def dbEq (a b : SysState) : Prop :=
  a.users = b.users ∧ a.user_growid = b.user_growid ∧
  a.transactions = b.transactions ∧ a.products = b.products ∧
  a.stock = b.stock

/-! ## Helper lemmas about the cache primitives -/

theorem memLookup_nil (k : String) : memLookup [] k = none := rfl

theorem memLookup_cons (x : String × CacheEntry) (xs : MemCache) (k : String) :
    memLookup (x :: xs) k = if x.1 = k then some x.2 else memLookup xs k := by
  by_cases hx : x.1 = k <;> simp [memLookup, List.find?, hx]

theorem memErase_cons (x : String × CacheEntry) (xs : MemCache) (k : String) :
    memErase (x :: xs) k = if x.1 = k then memErase xs k else x :: memErase xs k := by
  by_cases hx : x.1 = k <;> simp [memErase, List.filter_cons, hx]

theorem memLookup_memErase_self (m : MemCache) (k : String) :
    memLookup (memErase m k) k = none := by
  induction m with
  | nil => rfl
  | cons x xs ih =>
    rw [memErase_cons]
    by_cases hx : x.1 = k
    · simpa [hx] using ih
    · rw [if_neg hx, memLookup_cons, if_neg hx]
      exact ih

theorem memLookup_memErase_ne (m : MemCache) (k k' : String) (h : k' ≠ k) :
    memLookup (memErase m k') k = memLookup m k := by
  induction m with
  | nil => rfl
  | cons x xs ih =>
    rw [memErase_cons, memLookup_cons]
    by_cases hx : x.1 = k'
    · have hxk : ¬ x.1 = k := by rw [hx]; exact h
      rw [if_pos hx, if_neg hxk]
      exact ih
    · rw [if_neg hx, memLookup_cons]
      by_cases hxk : x.1 = k
      · rw [if_pos hxk, if_pos hxk]
      · rw [if_neg hxk, if_neg hxk]
        exact ih

theorem memLookup_memSet_self (m : MemCache) (k : String) (e : CacheEntry) :
    memLookup (memSet m k e) k = some e := by
  unfold memSet
  by_cases h : m.any (fun kv => kv.1 = k)
  · simp only [h, if_true]
    induction m with
    | nil => simp at h
    | cons x xs ih =>
      by_cases hx : x.1 = k
      · simp [memLookup, List.find?, hx]
      · have hxs : xs.any (fun kv => kv.1 = k) := by
          simpa [List.any_cons, hx] using h
        simpa [memLookup, List.find?, hx] using ih hxs
  · simp only [h, if_false]
    induction m with
    | nil => simp [memLookup, List.find?]
    | cons x xs ih =>
      have hx : ¬ x.1 = k := by
        intro hk
        exact h (by simp [List.any_cons, hk])
      have hxs : ¬ xs.any (fun kv => kv.1 = k) := by
        intro hk
        exact h (by simp [List.any_cons, hk])
      simpa [memLookup, List.find?, hx] using ih hxs

theorem memSet_length_le (m : MemCache) (k : String) (e : CacheEntry) :
    (memSet m k e).length ≤ m.length + 1 := by
  unfold memSet
  split
  · simp
  · simp

theorem memErase_length_le (m : MemCache) (k : String) :
    (memErase m k).length ≤ m.length := by
  simpa [memErase] using List.length_filter_le _ m

theorem enforce_length_le (m : MemCache) :
    (enforceMemoryLimit m).length ≤ m.length := by
  unfold enforceMemoryLimit
  split
  · exact List.length_filter_le _ m
  · exact le_refl _

theorem enforce_of_le (m : MemCache) (h : m.length ≤ MAX_MEMORY_ITEMS) :
    enforceMemoryLimit m = m := by
  unfold enforceMemoryLimit
  have : ¬ m.length > MAX_MEMORY_ITEMS := by omega
  simp [this]

theorem dbLookup_cons (x : DbCacheRow) (xs : List DbCacheRow) (k : String) :
    dbLookup (x :: xs) k = if x.key = k then some x else dbLookup xs k := by
  by_cases hx : x.key = k <;> simp [dbLookup, List.find?, hx]

theorem dbErase_cons (x : DbCacheRow) (xs : List DbCacheRow) (k : String) :
    dbErase (x :: xs) k = if x.key = k then dbErase xs k else x :: dbErase xs k := by
  by_cases hx : x.key = k <;> simp [dbErase, List.filter_cons, hx]

theorem dbLookup_dbErase_self (t : List DbCacheRow) (k : String) :
    dbLookup (dbErase t k) k = none := by
  induction t with
  | nil => rfl
  | cons x xs ih =>
    rw [dbErase_cons]
    by_cases hx : x.key = k
    · simpa [hx] using ih
    · rw [if_neg hx, dbLookup_cons, if_neg hx]
      exact ih

theorem dbEq_refl (a : SysState) : dbEq a a := ⟨rfl, rfl, rfl, rfl, rfl⟩

theorem dbEq_trans {a b c : SysState} (h1 : dbEq a b) (h2 : dbEq b c) :
    dbEq a c := by
  obtain ⟨u1, g1, t1, p1, s1⟩ := h1
  obtain ⟨u2, g2, t2, p2, s2⟩ := h2
  exact ⟨u1.trans u2, g1.trans g2, t1.trans t2, p1.trans p2, s1.trans s2⟩

theorem cacheGetDb_dbEq (s : SysState) (k : String) (now : Nat) :
    dbEq (cacheGetDb s k now).2 s := by
  unfold cacheGetDb
  split
  · split
    · exact ⟨rfl, rfl, rfl, rfl, rfl⟩
    · exact ⟨rfl, rfl, rfl, rfl, rfl⟩
  · exact dbEq_refl s

theorem cacheGet_dbEq (s : SysState) (k : String) (now : Nat) :
    dbEq (cacheGet s k now).2 s := by
  unfold cacheGet
  split
  · split
    · exact dbEq_refl s
    · exact cacheGetDb_dbEq _ k now
  · exact cacheGetDb_dbEq s k now

theorem cacheSet_dbEq (s : SysState) (k : String) (v : CVal)
    (ei : Option Nat) (p : Bool) (now : Nat) :
    dbEq (cacheSet s k v ei p now) s := by
  unfold cacheSet
  split
  · exact ⟨rfl, rfl, rfl, rfl, rfl⟩
  · exact ⟨rfl, rfl, rfl, rfl, rfl⟩

theorem cacheDelete_dbEq (s : SysState) (k : String) :
    dbEq (cacheDelete s k) s := ⟨rfl, rfl, rfl, rfl, rfl⟩

theorem from_wl_total_nat (n : Nat) :
    (Balance.from_wl (n : Int)).total_wl = n := by
  unfold Balance.from_wl Balance.mk' Balance.total_wl
  simp only [← Int.ofNat_emod, ← Int.ofNat_ediv, Int.toNat_ofNat]
  omega

theorem get_balance_dbEq (s : SysState) (g : String) (now : Nat) :
    dbEq (BalanceManagerService.get_balance s g now).2 s := by
  unfold BalanceManagerService.get_balance
  split
  · rename_i s1 b heq
    have := cacheGet_dbEq s ("balance_" ++ g) now
    rw [heq] at this
    exact this
  · rename_i cval s1 hnb heq
    have h1 : dbEq s1 s := by
      have := cacheGet_dbEq s ("balance_" ++ g) now
      rw [heq] at this
      exact this
    split
    · exact dbEq_trans (cacheSet_dbEq _ _ _ _ _ _) h1
    · exact h1

theorem update_balance_eq_of_get (s : SysState) (g d k : String)
    (δw δd δb : Int) (now : Nat) (cur : Balance) (s1 : SysState)
    (hget : BalanceManagerService.get_balance s g now = (Resp.ok cur, s1)) :
    BalanceManagerService.update_balance s g δw δd δb d k now
      = BalanceManagerService.updateApply s1 g cur δw δd δb d k now := by
  unfold BalanceManagerService.update_balance
  rw [hget]

/-- Updating the matched rows in place preserves which row `find?` returns,
provided the update preserves the key. -/
theorem find?_map_update (l : List UserRow) (g : String) (r : UserRow)
    (h : l.find? (fun u => u.growid = g) = some r) (f : UserRow → UserRow)
    (hf : ∀ u, (f u).growid = u.growid) :
    (l.map (fun u => if u.growid = g then f u else u)).find?
      (fun u => u.growid = g) = some (f r) := by
  induction l with
  | nil => simp at h
  | cons x xs ih =>
    simp only [List.map_cons]
    by_cases hx : x.growid = g
    · rw [List.find?_cons_of_pos _ (by simpa using hx)] at h
      have hxr : x = r := by simpa using h
      subst hxr
      rw [if_pos hx]
      exact List.find?_cons_of_pos _ (by simpa using (hf x).trans hx)
    · rw [List.find?_cons_of_neg _ (by simpa using hx)] at h
      rw [if_neg hx, List.find?_cons_of_neg _ (by simpa using hx)]
      exact ih h

theorem balance_key_ne_trx_key (g : String) :
    ("balance_" ++ g) ≠ ("trx_history_" ++ g) := by
  intro h
  have hlen := congrArg String.length h
  rw [String.length_append, String.length_append] at hlen
  have h8 : "balance_".length = 8 := rfl
  have h12 : "trx_history_".length = 12 := rfl
  omega

theorem cacheGetDb_mem_len (s : SysState) (k : String) (now : Nat) :
    (cacheGetDb s k now).2.mem.length ≤ s.mem.length + 1 := by
  unfold cacheGetDb
  split
  · split
    · dsimp only
      exact le_trans (enforce_length_le _) (memSet_length_le _ _ _)
    · dsimp only
      omega
  · dsimp only
    omega

theorem cacheGet_mem_len (s : SysState) (k : String) (now : Nat) :
    (cacheGet s k now).2.mem.length ≤ s.mem.length + 1 := by
  unfold cacheGet
  split
  · split
    · dsimp only
      omega
    · exact le_trans (cacheGetDb_mem_len _ k now)
        (by simpa using Nat.add_le_add_right (memErase_length_le s.mem k) 1)
  · exact cacheGetDb_mem_len s k now

theorem get_balance_mem_len (s : SysState) (g : String) (now : Nat) :
    (BalanceManagerService.get_balance s g now).2.mem.length
      ≤ s.mem.length + 2 := by
  unfold BalanceManagerService.get_balance
  split
  · rename_i b s1 heq
    have hc := cacheGet_mem_len s ("balance_" ++ g) now
    rw [heq] at hc
    dsimp only at hc ⊢
    omega
  · rename_i cval s1 hnb heq
    have h1 : s1.mem.length ≤ s.mem.length + 1 := by
      have hc := cacheGet_mem_len s ("balance_" ++ g) now
      rw [heq] at hc
      dsimp only at hc
      exact hc
    split
    · dsimp only
      unfold cacheSet
      simp only [Bool.false_eq_true, if_false]
      exact le_trans (le_trans (enforce_length_le _) (memSet_length_le _ _ _))
        (by omega)
    · dsimp only
      omega

theorem mem_no_key_memErase (m : MemCache) (k : String) :
    ∀ kv ∈ memErase m k, ¬ kv.1 = k := by
  intro kv hkv
  have := List.of_mem_filter hkv
  simpa using this

theorem memSet_memErase_eq_append (m : MemCache) (k : String) (e : CacheEntry) :
    memSet (memErase m k) k e = memErase m k ++ [(k, e)] := by
  unfold memSet
  have hany : (memErase m k).any (fun kv => kv.1 = k) = false := by
    rw [List.any_eq_false]
    intro kv hkv
    simpa using mem_no_key_memErase m k kv hkv
  rw [hany]
  simp

/-- After evicting the key and re-inserting a single entry for it, every
entry the in-process map can yield for that key — even after the memory
limit sweep, which only removes entries — is that entry. -/
theorem lookup_key_after_set_erase (m : MemCache) (k : String) (e : CacheEntry)
    (e2 : CacheEntry)
    (h : memLookup (enforceMemoryLimit (memSet (memErase m k) k e)) k
        = some e2) : e2 = e := by
  unfold memLookup at h
  cases hf : (enforceMemoryLimit (memSet (memErase m k) k e)).find?
      (fun kv => kv.1 = k) with
  | none => rw [hf] at h; simp at h
  | some kv =>
    rw [hf] at h
    simp at h
    have hkey : kv.1 = k := by simpa using List.find?_some hf
    have hmem : kv ∈ enforceMemoryLimit (memSet (memErase m k) k e) :=
      List.mem_of_find?_eq_some hf
    have hmem2 : kv ∈ memSet (memErase m k) k e := by
      revert hmem
      unfold enforceMemoryLimit
      split
      · intro hmem
        exact List.mem_of_mem_filter hmem
      · exact id
    rw [memSet_memErase_eq_append] at hmem2
    rcases List.mem_append.1 hmem2 with hl | hr
    · exact absurd hkey (mem_no_key_memErase m k kv hl)
    · simp at hr
      rw [← h, hr]

/-! ## Claim theorems -/

/-- C10: for every Balance whose total lies in [0, MAX_AMOUNT], decomposing
the total with `from_wl` and re-totalling gives the same value; the
round-trip is on the total only, not necessarily on the components. -/
theorem claim_fromwl_total_roundtrip (b : Balance)
    (h : b.total_wl ≤ Balance.MAX_AMOUNT) :
    (Balance.from_wl (b.total_wl : Int)).total_wl = b.total_wl :=
  from_wl_total_nat b.total_wl

/-- Witness for C10 at the concrete balance (50, 1, 0), total 150 WL. -/
theorem claim_fromwl_total_roundtrip_witness :
    (Balance.from_wl ((Balance.mk 50 1 0).total_wl : Int)).total_wl
      = (Balance.mk 50 1 0).total_wl :=
  claim_fromwl_total_roundtrip (Balance.mk 50 1 0) (by decide)

/-- C1: evaluation of `register_user` at the claim's scenario.  After "H1"
is linked to "ALICE", registering "H1" as the different name "BOB" does NOT
fail with an already-linked error: it succeeds and the INSERT OR REPLACE
overwrites the link, so "H1" now maps to "BOB" (the duplicate pre-check
compares the fetched `users.growid` with itself and can never fire).
Re-registering the same name "ALICE" is idempotent and keeps exactly one
link row, as the claim's second half states. -/
theorem register_different_name_overwrites_link :
    (BalanceManagerService.register_user
        (BalanceManagerService.register_user emptyState "H1" "ALICE" 0).2
        "H1" "BOB" 1).1 = Resp.ok ("H1", "BOB") ∧
    ((BalanceManagerService.register_user
        (BalanceManagerService.register_user emptyState "H1" "ALICE" 0).2
        "H1" "BOB" 1).2).user_growid = [("H1", "BOB")] ∧
    (BalanceManagerService.register_user
        (BalanceManagerService.register_user emptyState "H1" "ALICE" 0).2
        "H1" "ALICE" 1).1 = Resp.ok ("H1", "ALICE") ∧
    ((BalanceManagerService.register_user
        (BalanceManagerService.register_user emptyState "H1" "ALICE" 0).2
        "H1" "ALICE" 1).2).user_growid = [("H1", "ALICE")] := by
  decide

/-- C2: evaluation of `process_purchase` at the claim's scenario: the buyer
is registered with ample balance, the product exists, and only 1 stock unit
is AVAILABLE while quantity 2 is requested.  The purchase does fail and
leaves the balance, the stock and the ledger unchanged, but the error is
TRANSACTION_FAILED (the coordinator crashes reading `.success` off the
`Optional[Dict]` returned by `get_product`), not the INSUFFICIENT_STOCK the
claim names — no insufficient-stock check exists on this path, and
`get_available_stock` returns a short page as a success. -/
theorem purchase_short_stock_fails_transaction_failed :
    ((stShort.stock.filter (fun r =>
        r.product_code = "P1" ∧ r.status = "available")).length = 1) ∧
    (TransactionManager.process_purchase stShort "H1" "P1" 2 5).1
      = Resp.err MSG_TRANSACTION_FAILED ∧
    MSG_TRANSACTION_FAILED ≠ MSG_INSUFFICIENT_STOCK ∧
    (TransactionManager.process_purchase stShort "H1" "P1" 2 5).2.users
      = stShort.users ∧
    (TransactionManager.process_purchase stShort "H1" "P1" 2 5).2.stock
      = stShort.stock ∧
    (TransactionManager.process_purchase stShort "H1" "P1" 2 5).2.transactions
      = stShort.transactions := by
  decide

/-- C5: evaluation of `process_purchase` at a scenario with ample stock and
ample balance, where the claim's compensating-rollback contract could come
into play.  The purchase fails with TRANSACTION_FAILED at the `get_product`
step, before any stock unit is ever marked SOLD: every unit is still
AVAILABLE afterwards and the balance and ledger are unchanged, so the
balance-debit-after-SOLD situation the claim describes is unreachable (and
both `update_stock_status` calls in the coordinator pass four positional
arguments to a three-parameter method, so marking and rollback would raise
TypeError in any case). -/
theorem purchase_never_reaches_sold_rollback :
    (TransactionManager.process_purchase stAmple "H1" "P1" 1 5).1
      = Resp.err MSG_TRANSACTION_FAILED ∧
    (TransactionManager.process_purchase stAmple "H1" "P1" 1 5).2.stock
      = stAmple.stock ∧
    ((TransactionManager.process_purchase stAmple "H1" "P1" 1 5).2.stock.all
        (fun r => r.status = "available")) ∧
    (TransactionManager.process_purchase stAmple "H1" "P1" 1 5).2.users
      = stAmple.users ∧
    (TransactionManager.process_purchase stAmple "H1" "P1" 1 5).2.transactions
      = stAmple.transactions := by
  decide

/-- C6 counterexample: buyer "CAROL" has tier-1 counter 0 but total 1000 WL,
product price 500, quantity 1, so the claim predicts the balance-debit step
fails with INSUFFICIENT_BALANCE; the actual purchase returns
TRANSACTION_FAILED (it dies at the `get_product` step, before the pre-check
and the debit are ever reached). -/
theorem purchase_tier_poor_not_insufficient_balance :
    (TransactionManager.process_purchase stTierPoor "H2" "P2" 1 5).1
      = Resp.err MSG_TRANSACTION_FAILED ∧
    MSG_TRANSACTION_FAILED ≠ MSG_INSUFFICIENT_BALANCE := by
  decide

/-- C4 counterexample: on the all-zero balance of "DAVE", the call
`update_balance (wl := -5) (bgl := +101)` has a negative tier-1 delta whose
magnitude exceeds the current tier-1 counter, yet it fails with
INVALID_AMOUNT — the range validation of the clamped result runs before the
over-withdrawal guard, so the error is not INSUFFICIENT_BALANCE as the
claim states. -/
theorem over_withdrawal_can_fail_invalid_amount :
    (BalanceManagerService.update_balance stZero "DAVE" (-5) 0 101 "d" "k" 0).1
      = Resp.err MSG_INVALID_AMOUNT ∧
    MSG_INVALID_AMOUNT ≠ MSG_INSUFFICIENT_BALANCE := by
  decide

/-- C7 counterexample: the store holds two ledger rows for "ALICE" but the
still-valid cached history page holds only one; `get_transaction_history`
with limit 2 returns the one cached entry — fewer than the requested limit —
without re-reading the store. -/
theorem history_returns_fewer_than_limit_from_cache :
    (BalanceManagerService.get_transaction_history stHistCached "ALICE" 2 5).1
      = Resp.ok [trxNew] ∧
    (stHistCached.transactions.filter (fun t => t.growid = "ALICE")).length = 2 ∧
    [trxNew].length < 2 := by
  decide

/-- C7 amended: when a still-valid non-empty cached history page exists,
`get_transaction_history` returns the first `limit` entries of that page —
possibly fewer than `limit` — and does not touch the store at all (the
state, store tables included, is returned unchanged); only on a cache miss
does it read the ledger, newest entries first. -/
theorem claim_history_cached_truncates (s : SysState) (g : String)
    (limit now : Nat) (l : List TrxRow) (exp : Nat)
    (hmem : memLookup s.mem ("trx_history_" ++ g) = some ⟨CVal.trxList l, exp⟩)
    (hval : now < exp) (hne : l ≠ []) :
    BalanceManagerService.get_transaction_history s g limit now
      = (Resp.ok (l.take limit), s) := by
  have hcg : cacheGet s ("trx_history_" ++ g) now
      = (some (CVal.trxList l), s) := by
    unfold cacheGet
    rw [hmem]
    simp [isValid, hval]
  unfold BalanceManagerService.get_transaction_history
  rw [hcg]
  simp [hne]

/-- Witness for C7's amended claim at the concrete cached state: the cached
one-entry page is returned for limit 2, untouched state. -/
theorem claim_history_cached_truncates_witness :
    BalanceManagerService.get_transaction_history stHistCached "ALICE" 2 5
      = (Resp.ok ([trxNew].take 2), stHistCached) :=
  claim_history_cached_truncates stHistCached "ALICE" 2 5 [trxNew] 100
    (by decide) (by decide) (by decide)

/-- C4 amended: an over-withdrawal on some tier is always rejected before
any store mutation — the `users` and `transactions` tables of the returned
state are unchanged — but the error is INSUFFICIENT_BALANCE only when the
clamped result also passes the range validation; when the clamped result is
out of range, the range check runs first and the call fails with
INVALID_AMOUNT instead.  The clamp never silently absorbs the
over-withdrawal: the call always fails. -/
theorem claim_over_withdrawal_rejected (s : SysState) (g d k : String)
    (δw δd δb : Int) (now : Nat) (cur : Balance) (s1 : SysState)
    (hget : BalanceManagerService.get_balance s g now = (Resp.ok cur, s1))
    (hover : (δw < 0 ∧ δw.natAbs > cur.wl) ∨ (δd < 0 ∧ δd.natAbs > cur.dl) ∨
      (δb < 0 ∧ δb.natAbs > cur.bgl)) :
    (∃ e, (BalanceManagerService.update_balance s g δw δd δb d k now).1
        = Resp.err e ∧
      (e = MSG_INSUFFICIENT_BALANCE ∨ e = MSG_INVALID_AMOUNT)) ∧
    (BalanceManagerService.update_balance s g δw δd δb d k now).2.users
      = s.users ∧
    (BalanceManagerService.update_balance s g δw δd δb d k now).2.transactions
      = s.transactions ∧
    ((Balance.mk (BalanceManagerService.clampAdd cur.wl δw)
        (BalanceManagerService.clampAdd cur.dl δd)
        (BalanceManagerService.clampAdd cur.bgl δb)).validate = true →
      (BalanceManagerService.update_balance s g δw δd δb d k now).1
        = Resp.err MSG_INSUFFICIENT_BALANCE) := by
  have hs1 : dbEq s1 s := by
    have hd := get_balance_dbEq s g now
    rw [hget] at hd
    exact hd
  rw [update_balance_eq_of_get s g d k δw δd δb now cur s1 hget]
  have hkey : BalanceManagerService.updateApply s1 g cur δw δd δb d k now
        = (Resp.err MSG_INVALID_AMOUNT, s1) ∧
        (Balance.mk (BalanceManagerService.clampAdd cur.wl δw)
          (BalanceManagerService.clampAdd cur.dl δd)
          (BalanceManagerService.clampAdd cur.bgl δb)).validate = false ∨
      BalanceManagerService.updateApply s1 g cur δw δd δb d k now
        = (Resp.err MSG_INSUFFICIENT_BALANCE, s1) := by
    unfold BalanceManagerService.updateApply
    by_cases hv : (Balance.mk (BalanceManagerService.clampAdd cur.wl δw)
        (BalanceManagerService.clampAdd cur.dl δd)
        (BalanceManagerService.clampAdd cur.bgl δb)).validate = false
    · rw [if_pos hv]
      exact Or.inl ⟨rfl, hv⟩
    · rw [if_neg hv]
      by_cases h1 : δw < 0 ∧ δw.natAbs > cur.wl
      · rw [if_pos h1]
        exact Or.inr rfl
      · rw [if_neg h1]
        by_cases h2 : δd < 0 ∧ δd.natAbs > cur.dl
        · rw [if_pos h2]
          exact Or.inr rfl
        · rw [if_neg h2]
          by_cases h3 : δb < 0 ∧ δb.natAbs > cur.bgl
          · rw [if_pos h3]
            exact Or.inr rfl
          · rcases hover with h | h | h
            · exact absurd h h1
            · exact absurd h h2
            · exact absurd h h3
  rcases hkey with ⟨heq, hvfalse⟩ | heq <;> rw [heq]
  · refine ⟨⟨MSG_INVALID_AMOUNT, rfl, Or.inr rfl⟩, hs1.1, hs1.2.2.1, ?_⟩
    intro hvtrue
    rw [hvtrue] at hvfalse
    cases hvfalse
  · exact ⟨⟨MSG_INSUFFICIENT_BALANCE, rfl, Or.inl rfl⟩, hs1.1, hs1.2.2.1,
      fun _ => rfl⟩

/-- Witness for C4's amended claim: on the zero balance of "DAVE", a plain
over-withdrawal of 5 WL (deltas -5, 0, 0) is rejected with
INSUFFICIENT_BALANCE and changes neither table. -/
theorem claim_over_withdrawal_rejected_witness :
    (∃ e, (BalanceManagerService.update_balance stZero "DAVE" (-5) 0 0
        "d" "k" 0).1 = Resp.err e ∧
      (e = MSG_INSUFFICIENT_BALANCE ∨ e = MSG_INVALID_AMOUNT)) ∧
    (BalanceManagerService.update_balance stZero "DAVE" (-5) 0 0
        "d" "k" 0).2.users = stZero.users ∧
    (BalanceManagerService.update_balance stZero "DAVE" (-5) 0 0
        "d" "k" 0).2.transactions = stZero.transactions ∧
    ((Balance.mk (BalanceManagerService.clampAdd (Balance.mk 0 0 0).wl (-5))
        (BalanceManagerService.clampAdd (Balance.mk 0 0 0).dl 0)
        (BalanceManagerService.clampAdd (Balance.mk 0 0 0).bgl 0)).validate
          = true →
      (BalanceManagerService.update_balance stZero "DAVE" (-5) 0 0
          "d" "k" 0).1 = Resp.err MSG_INSUFFICIENT_BALANCE) :=
  claim_over_withdrawal_rejected stZero "DAVE" "d" "k" (-5) 0 0 0
    (Balance.mk 0 0 0)
    (BalanceManagerService.get_balance stZero "DAVE" 0).2
    (by decide) (Or.inl (by decide))

/-- C6 amended: `process_purchase` passes the whole total as a single tier-1
delta to `update_balance` (wl = -total, dl = bgl = 0), and `update_balance`
called with such a delta fails with INSUFFICIENT_BALANCE whenever the tier-1
counter is below the total — even when the cross-tier total balance is
sufficient — leaving balances and ledger unchanged.  In the shipped
coordinator the debit step is never reached: the purchase fails earlier,
with TRANSACTION_FAILED, at the `get_product` step. -/
theorem claim_tier1_debit_insufficient (s : SysState) (g d k : String)
    (T : Int) (now : Nat) (cur : Balance) (s1 : SysState)
    (hget : BalanceManagerService.get_balance s g now = (Resp.ok cur, s1))
    (hT : (cur.wl : Int) < T) (htot : T ≤ (cur.total_wl : Int))
    (hmax : cur.total_wl ≤ Balance.MAX_AMOUNT) :
    (BalanceManagerService.update_balance s g (-T) 0 0 d k now).1
      = Resp.err MSG_INSUFFICIENT_BALANCE ∧
    (BalanceManagerService.update_balance s g (-T) 0 0 d k now).2.users
      = s.users ∧
    (BalanceManagerService.update_balance s g (-T) 0 0 d k now).2.transactions
      = s.transactions := by
  have hs1 : dbEq s1 s := by
    have hd := get_balance_dbEq s g now
    rw [hget] at hd
    exact hd
  rw [update_balance_eq_of_get s g d k (-T) 0 0 now cur s1 hget]
  have hwl0 : BalanceManagerService.clampAdd cur.wl (-T) = 0 := by
    unfold BalanceManagerService.clampAdd
    omega
  have hdl : BalanceManagerService.clampAdd cur.dl 0 = cur.dl := by
    unfold BalanceManagerService.clampAdd
    omega
  have hbgl : BalanceManagerService.clampAdd cur.bgl 0 = cur.bgl := by
    unfold BalanceManagerService.clampAdd
    omega
  have hv : ¬ (Balance.mk (BalanceManagerService.clampAdd cur.wl (-T))
      (BalanceManagerService.clampAdd cur.dl 0)
      (BalanceManagerService.clampAdd cur.bgl 0)).validate = false := by
    rw [hwl0, hdl, hbgl]
    unfold Balance.validate Balance.total_wl Balance.MIN_AMOUNT
      Balance.MAX_AMOUNT
    unfold Balance.total_wl Balance.MAX_AMOUNT at hmax
    simp only [decide_eq_false_iff_not, not_and, not_le, not_not]
    omega
  have hw : (-T) < 0 ∧ (-T).natAbs > cur.wl := by
    constructor
    · omega
    · omega
  unfold BalanceManagerService.updateApply
  rw [if_neg hv, if_pos hw]
  exact ⟨rfl, hs1.1, hs1.2.2.1⟩

/-- Witness for C6's amended claim at the tier-poor buyer: "CAROL" holds
(0 WL, 10 DL, 0 BGL), total 1000, and a pure tier-1 debit of 500 fails with
INSUFFICIENT_BALANCE leaving both tables unchanged. -/
theorem claim_tier1_debit_insufficient_witness :
    (BalanceManagerService.update_balance stTierPoor "CAROL" (-500) 0 0
        "d" "purchase" 5).1 = Resp.err MSG_INSUFFICIENT_BALANCE ∧
    (BalanceManagerService.update_balance stTierPoor "CAROL" (-500) 0 0
        "d" "purchase" 5).2.users = stTierPoor.users ∧
    (BalanceManagerService.update_balance stTierPoor "CAROL" (-500) 0 0
        "d" "purchase" 5).2.transactions = stTierPoor.transactions :=
  claim_tier1_debit_insufficient stTierPoor "CAROL" "d" "purchase" 500 5
    (Balance.mk 0 10 0)
    (BalanceManagerService.get_balance stTierPoor "CAROL" 5).2
    (by decide) (by decide) (by decide) (by decide)

/-- C3: when `update_balance` succeeds, the returned balance is, per tier
independently, `max(0, current + delta)` of the balance the service read
through the cache, the persisted `users` row carries exactly those values,
and exactly one new ledger entry is prepended in the same store transaction,
with old snapshot `cur.format()` and new snapshot `nb.format()`. -/
theorem claim_update_balance_persists (s : SysState) (g d k : String)
    (δw δd δb : Int) (now : Nat) (cur : Balance) (s1 : SysState)
    (hget : BalanceManagerService.get_balance s g now = (Resp.ok cur, s1))
    (r : UserRow) (hrow : s.users.find? (fun u => u.growid = g) = some r)
    (nb : Balance) (s2 : SysState)
    (hupd : BalanceManagerService.update_balance s g δw δd δb d k now
        = (Resp.ok nb, s2)) :
    nb = Balance.mk (BalanceManagerService.clampAdd cur.wl δw)
      (BalanceManagerService.clampAdd cur.dl δd)
      (BalanceManagerService.clampAdd cur.bgl δb) ∧
    s2.users.find? (fun u => u.growid = g) =
      some { r with balance_wl := BalanceManagerService.clampAdd cur.wl δw,
                    balance_dl := BalanceManagerService.clampAdd cur.dl δd,
                    balance_bgl := BalanceManagerService.clampAdd cur.bgl δb } ∧
    s2.transactions = TrxRow.mk g k d cur.format nb.format now
      :: s.transactions := by
  have hs1 : dbEq s1 s := by
    have hd := get_balance_dbEq s g now
    rw [hget] at hd
    exact hd
  rw [update_balance_eq_of_get s g d k δw δd δb now cur s1 hget] at hupd
  unfold BalanceManagerService.updateApply at hupd
  split_ifs at hupd with hv h1 h2 h3
  · simp at hupd
  · simp at hupd
  · simp at hupd
  · simp at hupd
  · have hfst := congrArg Prod.fst hupd
    have hsnd := congrArg Prod.snd hupd
    dsimp only at hfst hsnd
    injection hfst with hnb
    refine ⟨hnb.symm, ?_, ?_⟩
    · have hu : s2.users = ({ s1 with
          users := s1.users.map (fun u =>
            if u.growid = g then
              { u with balance_wl := BalanceManagerService.clampAdd cur.wl δw,
                       balance_dl := BalanceManagerService.clampAdd cur.dl δd,
                       balance_bgl := BalanceManagerService.clampAdd cur.bgl δb }
            else u),
          transactions :=
            TrxRow.mk g k d cur.format
              (Balance.mk (BalanceManagerService.clampAdd cur.wl δw)
                (BalanceManagerService.clampAdd cur.dl δd)
                (BalanceManagerService.clampAdd cur.bgl δb)).format now
              :: s1.transactions } : SysState).users := by
        rw [← hsnd]
        exact ((cacheDelete_dbEq _ _).1).trans (cacheSet_dbEq _ _ _ _ _ _).1
      rw [hu]
      dsimp only
      rw [hs1.1]
      exact find?_map_update s.users g r hrow _ (fun u => rfl)
    · have ht : s2.transactions =
          TrxRow.mk g k d cur.format
            (Balance.mk (BalanceManagerService.clampAdd cur.wl δw)
              (BalanceManagerService.clampAdd cur.dl δd)
              (BalanceManagerService.clampAdd cur.bgl δb)).format now
            :: s1.transactions := by
        rw [← hsnd]
        exact ((cacheDelete_dbEq _ _).2.2.1).trans (cacheSet_dbEq _ _ _ _ _ _).2.2.1
      rw [ht, hs1.2.2.1, ← hnb]

/-- Witness for C3 at a concrete deposit: "CAROL" (0 WL, 10 DL, 0 BGL)
receives +50 WL; the persisted row, returned balance and new ledger head all
agree. -/
theorem claim_update_balance_persists_witness :
    Balance.mk 50 10 0
      = Balance.mk (BalanceManagerService.clampAdd (Balance.mk 0 10 0).wl 50)
        (BalanceManagerService.clampAdd (Balance.mk 0 10 0).dl 0)
        (BalanceManagerService.clampAdd (Balance.mk 0 10 0).bgl 0) ∧
    (BalanceManagerService.update_balance stTierPoor "CAROL" 50 0 0
        "d" "deposit" 7).2.users.find? (fun u => u.growid = "CAROL") =
      some { growid := "CAROL", balance_wl := BalanceManagerService.clampAdd
                (Balance.mk 0 10 0).wl 50,
             balance_dl := BalanceManagerService.clampAdd
                (Balance.mk 0 10 0).dl 0,
             balance_bgl := BalanceManagerService.clampAdd
                (Balance.mk 0 10 0).bgl 0 } ∧
    (BalanceManagerService.update_balance stTierPoor "CAROL" 50 0 0
        "d" "deposit" 7).2.transactions
      = TrxRow.mk "CAROL" "deposit" "d" (Balance.mk 0 10 0).format
          (Balance.mk 50 10 0).format 7 :: stTierPoor.transactions :=
  claim_update_balance_persists stTierPoor "CAROL" "d" "deposit" 50 0 0 7
    (Balance.mk 0 10 0)
    (BalanceManagerService.get_balance stTierPoor "CAROL" 7).2
    (by decide) (UserRow.mk "CAROL" 0 10 0) (by decide) (Balance.mk 50 10 0)
    (BalanceManagerService.update_balance stTierPoor "CAROL" 50 0 0
      "d" "deposit" 7).2
    (by decide)

/-- C8: when `update_balance` succeeds, the state it returns already has the
fresh balance in the cache and the history page invalidated: an immediate
`get_balance` at the same instant returns the new balance (a cache hit well
inside the SHORT TTL window, with no store read — the state is unchanged),
and the transaction-history cache entry for the account is gone from both
tiers.  The only side condition is that the in-process map is at least three
entries under its 10000-entry capacity, so the eviction sweep cannot touch
the freshly written entry. -/
theorem claim_update_then_get_fresh (s : SysState) (g d k : String)
    (δw δd δb : Int) (now : Nat) (nb : Balance) (s2 : SysState)
    (hupd : BalanceManagerService.update_balance s g δw δd δb d k now
        = (Resp.ok nb, s2))
    (hlen : s.mem.length + 3 ≤ MAX_MEMORY_ITEMS) :
    BalanceManagerService.get_balance s2 g now = (Resp.ok nb, s2) ∧
    memLookup s2.mem ("trx_history_" ++ g) = none ∧
    dbLookup s2.cache_table ("trx_history_" ++ g) = none := by
  cases hgb : BalanceManagerService.get_balance s g now with
  | mk res s1 =>
    cases res with
    | err e =>
      unfold BalanceManagerService.update_balance at hupd
      rw [hgb] at hupd
      simp at hupd
    | ok cur =>
      have hl1 : s1.mem.length ≤ s.mem.length + 2 := by
        have hc := get_balance_mem_len s g now
        rw [hgb] at hc
        exact hc
      rw [update_balance_eq_of_get s g d k δw δd δb now cur s1 hgb] at hupd
      unfold BalanceManagerService.updateApply at hupd
      split_ifs at hupd with hv h1 h2 h3
      · simp at hupd
      · simp at hupd
      · simp at hupd
      · simp at hupd
      · have hfst := congrArg Prod.fst hupd
        have hsnd := congrArg Prod.snd hupd
        dsimp only at hfst hsnd
        injection hfst with hnb
        have hmemEq : s2.mem =
            memErase (enforceMemoryLimit (memSet s1.mem ("balance_" ++ g)
              ⟨CVal.bal (Balance.mk (BalanceManagerService.clampAdd cur.wl δw)
                (BalanceManagerService.clampAdd cur.dl δd)
                (BalanceManagerService.clampAdd cur.bgl δb)),
               now + CACHE_SHORT⟩)) ("trx_history_" ++ g) := by
          rw [← hsnd]
          rfl
        have hsmall : (memSet s1.mem ("balance_" ++ g)
            ⟨CVal.bal (Balance.mk (BalanceManagerService.clampAdd cur.wl δw)
              (BalanceManagerService.clampAdd cur.dl δd)
              (BalanceManagerService.clampAdd cur.bgl δb)),
             now + CACHE_SHORT⟩).length ≤ MAX_MEMORY_ITEMS := by
          have hms := memSet_length_le s1.mem ("balance_" ++ g)
            ⟨CVal.bal (Balance.mk (BalanceManagerService.clampAdd cur.wl δw)
              (BalanceManagerService.clampAdd cur.dl δd)
              (BalanceManagerService.clampAdd cur.bgl δb)),
             now + CACHE_SHORT⟩
          omega
        rw [enforce_of_le _ hsmall] at hmemEq
        have hlookB : memLookup s2.mem ("balance_" ++ g)
            = some ⟨CVal.bal (Balance.mk
                (BalanceManagerService.clampAdd cur.wl δw)
                (BalanceManagerService.clampAdd cur.dl δd)
                (BalanceManagerService.clampAdd cur.bgl δb)),
              now + CACHE_SHORT⟩ := by
          rw [hmemEq,
            memLookup_memErase_ne _ ("balance_" ++ g) ("trx_history_" ++ g)
              (balance_key_ne_trx_key g).symm,
            memLookup_memSet_self]
        have hcg : cacheGet s2 ("balance_" ++ g) now
            = (some (CVal.bal (Balance.mk
                (BalanceManagerService.clampAdd cur.wl δw)
                (BalanceManagerService.clampAdd cur.dl δd)
                (BalanceManagerService.clampAdd cur.bgl δb))), s2) := by
          unfold cacheGet
          rw [hlookB]
          have hvld : isValid ⟨CVal.bal (Balance.mk
              (BalanceManagerService.clampAdd cur.wl δw)
              (BalanceManagerService.clampAdd cur.dl δd)
              (BalanceManagerService.clampAdd cur.bgl δb)),
            now + CACHE_SHORT⟩ now = true := by
            unfold isValid CACHE_SHORT
            simp
          simp [hvld]
        refine ⟨?_, ?_, ?_⟩
        · unfold BalanceManagerService.get_balance
          rw [hcg, ← hnb]
        · rw [hmemEq]
          exact memLookup_memErase_self _ _
        · rw [← hsnd]
          exact dbLookup_dbErase_self _ _

/-- Witness for C8 at a concrete deposit: after crediting "DAVE" with 5 WL,
an immediate `get_balance` returns the new balance from the cache and both
history-cache tiers are empty for him. -/
theorem claim_update_then_get_fresh_witness :
    BalanceManagerService.get_balance
        (BalanceManagerService.update_balance stZero "DAVE" 5 0 0
          "d" "deposit" 7).2 "DAVE" 7
      = (Resp.ok (Balance.mk 5 0 0),
         (BalanceManagerService.update_balance stZero "DAVE" 5 0 0
           "d" "deposit" 7).2) ∧
    memLookup (BalanceManagerService.update_balance stZero "DAVE" 5 0 0
        "d" "deposit" 7).2.mem ("trx_history_" ++ "DAVE") = none ∧
    dbLookup (BalanceManagerService.update_balance stZero "DAVE" 5 0 0
        "d" "deposit" 7).2.cache_table ("trx_history_" ++ "DAVE") = none :=
  claim_update_then_get_fresh stZero "DAVE" "d" "deposit" 5 0 0 7
    (Balance.mk 5 0 0)
    (BalanceManagerService.update_balance stZero "DAVE" 5 0 0
      "d" "deposit" 7).2
    (by decide) (by decide)

/-- C9: a cache `get` never returns a value past its expiry instant — any
returned value comes from a tier entry whose `expires_at` lies strictly in
the future; an expired in-process entry is evicted (afterwards every entry
the map yields for that key is unexpired); and an expired backing-store row
is deleted and the get is a miss, in both tiers. -/
theorem claim_cache_get_never_stale (s : SysState) (key : String) (now : Nat) :
    (∀ v, (cacheGet s key now).1 = some v →
      (∃ e, memLookup s.mem key = some e ∧ now < e.expires_at ∧
        e.value = v) ∨
      (∃ r, dbLookup s.cache_table key = some r ∧ now < r.expires_at ∧
        r.value = v)) ∧
    (∀ e, memLookup s.mem key = some e → ¬ now < e.expires_at →
      ∀ e2, memLookup (cacheGet s key now).2.mem key = some e2 →
        now < e2.expires_at) ∧
    (∀ r, dbLookup s.cache_table key = some r → ¬ now < r.expires_at →
      (∀ e, memLookup s.mem key = some e → ¬ now < e.expires_at) →
      (cacheGet s key now).1 = none ∧
      dbLookup (cacheGet s key now).2.cache_table key = none) := by
  unfold cacheGet
  cases hm : memLookup s.mem key with
  | some e =>
    dsimp only
    by_cases hval : isValid e now
    · have hlt : now < e.expires_at := by
        unfold isValid at hval
        simpa using hval
      rw [if_pos hval]
      refine ⟨?_, ?_, ?_⟩
      · intro v hv
        dsimp only at hv
        exact Or.inl ⟨e, rfl, hlt, by simpa using hv⟩
      · intro e' he' hne'
        have he'e : e' = e := by cases he'; rfl
        rw [he'e] at hne'
        exact absurd hlt hne'
      · intro r hdb hexp hall
        exact absurd hlt (hall e rfl)
    · rw [if_neg hval]
      unfold cacheGetDb
      dsimp only
      cases hdb : dbLookup s.cache_table key with
      | some row =>
        dsimp only
        by_cases hrow : now < row.expires_at
        · rw [if_pos hrow]
          refine ⟨?_, ?_, ?_⟩
          · intro v hv
            dsimp only at hv
            exact Or.inr ⟨row, rfl, hrow, by simpa using hv⟩
          · intro e' he' hne' e2 he2
            dsimp only at he2
            have he2row := lookup_key_after_set_erase s.mem key
              ⟨row.value, row.expires_at⟩ e2 he2
            rw [he2row]
            exact hrow
          · intro r hr hexp hall
            cases hr
            exact absurd hrow hexp
        · rw [if_neg hrow]
          refine ⟨?_, ?_, ?_⟩
          · intro v hv
            dsimp only at hv
            cases hv
          · intro e' he' hne' e2 he2
            dsimp only at he2
            rw [memLookup_memErase_self] at he2
            cases he2
          · intro r hr hexp hall
            cases hr
            exact ⟨rfl, dbLookup_dbErase_self _ _⟩
      | none =>
        dsimp only
        refine ⟨?_, ?_, ?_⟩
        · intro v hv
          cases hv
        · intro e' he' hne' e2 he2
          rw [memLookup_memErase_self] at he2
          cases he2
        · intro r hr hexp hall
          cases hr
  | none =>
    dsimp only
    unfold cacheGetDb
    cases hdb : dbLookup s.cache_table key with
    | some row =>
      dsimp only
      by_cases hrow : now < row.expires_at
      · rw [if_pos hrow]
        refine ⟨?_, ?_, ?_⟩
        · intro v hv
          dsimp only at hv
          exact Or.inr ⟨row, rfl, hrow, by simpa using hv⟩
        · intro e' he' hne'
          cases he'
        · intro r hr hexp hall
          cases hr
          exact absurd hrow hexp
      · rw [if_neg hrow]
        refine ⟨?_, ?_, ?_⟩
        · intro v hv
          dsimp only at hv
          cases hv
        · intro e' he' hne'
          cases he'
        · intro r hr hexp hall
          cases hr
          exact ⟨rfl, dbLookup_dbErase_self _ _⟩
    | none =>
      dsimp only
      refine ⟨?_, ?_, ?_⟩
      · intro v hv
        cases hv
      · intro e' he' hne'
        cases he'
      · intro r hr hexp hall
        cases hr

/-- Witness for C9 at a state whose in-process entry and backing-store row
for the key "k" have both expired by instant 10: the get is a miss and the
expired store row is gone afterwards. -/
theorem claim_cache_get_never_stale_witness :
    (cacheGet (SysState.mk [] [] [] [] []
        [("k", ⟨CVal.nat 1, 3⟩)] [⟨"k", CVal.nat 2, 4⟩]) "k" 10).1 = none ∧
    dbLookup (cacheGet (SysState.mk [] [] [] [] []
        [("k", ⟨CVal.nat 1, 3⟩)] [⟨"k", CVal.nat 2, 4⟩]) "k" 10).2.cache_table
      "k" = none :=
  (claim_cache_get_never_stale (SysState.mk [] [] [] [] []
      [("k", ⟨CVal.nat 1, 3⟩)] [⟨"k", CVal.nat 2, 4⟩]) "k" 10).2.2
    ⟨"k", CVal.nat 2, 4⟩ (by decide) (by decide)
    (by
      intro e he
      have he' : e = ⟨CVal.nat 1, 3⟩ := by
        rw [show memLookup (SysState.mk [] [] [] [] []
            [("k", ⟨CVal.nat 1, 3⟩)] [⟨"k", CVal.nat 2, 4⟩]).mem "k"
          = some ⟨CVal.nat 1, 3⟩ from rfl] at he
        cases he
        rfl
      rw [he']
      decide)

end Store
